import Mathlib

/-!
# Verification of the observers-backend core

A shallow embedding, in Lean 4, of the behavioural core of the
observers-backend web service: the access-policy checks
(`decorators.py`, `routers/forum/comments.py`), the token-resolution
path (`dependencies.py`, `security/security_token.py`, `services.py`),
the chat connection registry (`routers/chat/socket_manager.py`,
`routers/chat/chat.py`), the article-rating update
(`database/crud.py`), and a spec-level model of the password-hashing
primitive (`security/hashing.py` delegates it to a third-party
library).  Machine integers do not occur on these paths; Python `int`
ids are embedded as `Nat` and timestamps as `Int` seconds.
-/

namespace Observers

/-! ## Data model (database/models.py, database/schemas.py)

Only the fields the authorization and authentication paths read are
embedded: a user's id, username, email and the title of its role
(`user.role.title`). -/

structure Role where
  title : String
deriving DecidableEq, Repr

structure User where
  id : Nat
  username : String
  email : String
  role : Role
deriving DecidableEq, Repr

/-- `schemas.CommentUpdate`: both fields optional; `none` embeds a field
the client did not set (pydantic `exclude_unset`). -/
structure CommentUpdate where
  content : Option String
  is_answer : Option Bool
deriving DecidableEq, Repr

/-- The slice of a stored comment that `update_comment` reads for its
policy decision: `comment_db.author.id` and
`comment_db.question.author.id`. -/
structure CommentDb where
  authorId : Nat
  questionAuthorId : Nat
deriving DecidableEq, Repr

/-! ## Comment-edit policy (routers/forum/comments.py, update_comment) -/

/-- Python truthiness of `comment.content` (`if comment.content:`):
an `Optional[str]` is truthy iff it is present and non-empty. -/
def contentTruthy (req : CommentUpdate) : Bool :=
  match req.content with
  | none => false
  | some s => s ≠ ""

/-- Outcome of `update_comment`: either `crud.update_object` is called
with some `CommentUpdate` schema, or the function falls through and no
update is performed. -/
inductive UpdateOutcome where
  | applied (upd : CommentUpdate)
  | noUpdate
deriving DecidableEq, Repr

/-- Embedding of the policy branching of `update_comment`
(routers/forum/comments.py lines 86-105): an Admin updates with the
full request schema; else, if the request's content is truthy and the
caller is the comment's author, a content-only schema is applied;
else, if the request sets `is_answer` and the caller is the parent
question's author, an `is_answer`-only schema is applied; else the
function body falls through (implicit `return None`, no update). -/
def update_comment (user : User) (cdb : CommentDb) (req : CommentUpdate) :
    UpdateOutcome :=
  if user.role.title = "Admin" then
    .applied req
  else if contentTruthy req ∧ user.id = cdb.authorId then
    .applied { content := req.content, is_answer := none }
  else if req.is_answer ≠ none ∧ user.id = cdb.questionAuthorId then
    .applied { content := none, is_answer := req.is_answer }
  else
    .noUpdate

/-- The fields that actually change: a fall-through changes nothing,
exactly as applying the empty update schema would. -/
def effectiveUpdate : UpdateOutcome → CommentUpdate
  | .applied upd => upd
  | .noUpdate => { content := none, is_answer := none }

/-- The decision table exactly as the spec states it (§4.2/§8): the
comment's author may change (only) the content field, the parent
question's author may change (only) the is-answer flag, an Admin may
change any field, everything else is denied per field. -/
def specCommentPolicy (user : User) (cdb : CommentDb) (req : CommentUpdate) :
    CommentUpdate :=
  { content :=
      if user.role.title = "Admin" ∨ user.id = cdb.authorId then req.content
      else none,
    is_answer :=
      if user.role.title = "Admin" ∨ user.id = cdb.questionAuthorId then
        req.is_answer
      else none }

/-- The decision table the code actually implements: as the spec's
table, except that a non-admin's content permission additionally
requires the requested content to be non-empty (Python truthiness),
and a request that matches the author-content row never also applies
`is_answer` (first-match priority: an actor who is both the comment's
author and the question's author, sending both fields, gets only the
content change). -/
def amendedCommentPolicy (user : User) (cdb : CommentDb) (req : CommentUpdate) :
    CommentUpdate :=
  let admin := user.role.title = "Admin"
  let authorContent := contentTruthy req = true ∧ user.id = cdb.authorId
  let qaAnswer := req.is_answer ≠ none ∧ user.id = cdb.questionAuthorId
  { content := if admin ∨ authorContent then req.content else none,
    is_answer :=
      if admin ∨ (qaAnswer ∧ ¬ authorContent) then req.is_answer else none }

/-- C1 (counterexample): the claim's decision table fails on the code
at a concrete input: a non-admin user who is both the comment's author
and the parent question's author sends a request setting both fields;
the spec table grants both field changes, but `update_comment` applies
only the content change and silently drops the `is_answer` change. -/
theorem update_comment_spec_table_cex :
    effectiveUpdate (update_comment
        { id := 1, username := "u", email := "u@e.cd", role := { title := "User" } }
        { authorId := 1, questionAuthorId := 1 }
        { content := some "x", is_answer := some true }) ≠
      specCommentPolicy
        { id := 1, username := "u", email := "u@e.cd", role := { title := "User" } }
        { authorId := 1, questionAuthorId := 1 }
        { content := some "x", is_answer := some true } := by
  decide

/-- C1 (amended): for every actor, comment and update request,
`update_comment` decides exactly as the amended decision table: an
Admin may change any field; a non-admin comment author may change only
the content field and only to a non-empty value; the parent question's
author may change only the is-answer flag, and only when the request
does not already match the author-content row; every other actor/field
combination is denied, and the evaluation is total. -/
theorem update_comment_matches_amended_table
    (user : User) (cdb : CommentDb) (req : CommentUpdate) :
    effectiveUpdate (update_comment user cdb req) =
      amendedCommentPolicy user cdb req := by
  unfold update_comment amendedCommentPolicy effectiveUpdate
  split_ifs with h1 h2 h3 <;> simp_all <;> split_ifs <;> simp_all

/-! ## Email shape test and dual-mode identity lookup (services.py)

`services.isemail` is `re.fullmatch` of the pattern
`^([A-Za-z0-9]+[.-_])*[A-Za-z0-9]+@[A-Za-z0-9-]+(\.[A-Z|a-z]{2,})+$`.
The pattern is embedded as a regular expression matched with Brzozowski
derivatives; full match of the whole string is exactly what
`re.fullmatch` decides.  Note two quirks of the pattern kept faithfully:
the class `[.-_]` is the character RANGE '.'..'_' and `[A-Z|a-z]`
contains the literal bar. -/

inductive RE where
  | emp
  | eps
  | cls (p : Char → Bool)
  | cat (a b : RE)
  | alt (a b : RE)
  | star (a : RE)

def RE.nullable : RE → Bool
  | .emp => false
  | .eps => true
  | .cls _ => false
  | .cat a b => a.nullable && b.nullable
  | .alt a b => a.nullable || b.nullable
  | .star _ => true

def RE.deriv : RE → Char → RE
  | .emp, _ => .emp
  | .eps, _ => .emp
  | .cls p, c => if p c then .eps else .emp
  | .cat a b, c =>
      if a.nullable then .alt (.cat (a.deriv c) b) (b.deriv c)
      else .cat (a.deriv c) b
  | .alt a b, c => .alt (a.deriv c) (b.deriv c)
  | .star a, c => .cat (a.deriv c) (.star a)

/-- Full match of the character list against the expression. -/
def RE.matchList (r : RE) (cs : List Char) : Bool :=
  (cs.foldl RE.deriv r).nullable

def alnumChar (c : Char) : Bool :=
  decide (('A' ≤ c ∧ c ≤ 'Z') ∨ ('a' ≤ c ∧ c ≤ 'z') ∨ ('0' ≤ c ∧ c ≤ '9'))

/-- The class `[.-_]`: the range from '.' (46) to '_' (95). -/
def sepChar (c : Char) : Bool :=
  decide ('.' ≤ c ∧ c ≤ '_')

/-- The class `[A-Za-z0-9-]`. -/
def domainChar (c : Char) : Bool :=
  alnumChar c || decide (c = '-')

/-- The class `[A-Z|a-z]` (with the literal bar). -/
def tldChar (c : Char) : Bool :=
  decide (('A' ≤ c ∧ c ≤ 'Z') ∨ c = '|' ∨ ('a' ≤ c ∧ c ≤ 'z'))

def chr (c : Char) : RE := .cls (fun d => decide (d = c))

/-- `r+` as `r r*`. -/
def rePlus (r : RE) : RE := .cat r (.star r)

/-- The e-mail pattern of `services.isemail`, subpattern by subpattern:
`([A-Za-z0-9]+[.-_])*`, `[A-Za-z0-9]+`, `@`, `[A-Za-z0-9-]+`,
`(\.[A-Z|a-z]{2,})+` (where `x{2,}` is `x x x*`). -/
def emailRE : RE :=
  .cat (.star (.cat (rePlus (.cls alnumChar)) (.cls sepChar)))
    (.cat (rePlus (.cls alnumChar))
      (.cat (chr '@')
        (.cat (rePlus (.cls domainChar))
          (rePlus (.cat (chr '.') (.cat (.cls tldChar) (rePlus (.cls tldChar))))))))

/-- `services.isemail`: truthy iff the whole string matches the pattern. -/
def isemail (s : String) : Bool :=
  RE.matchList emailRE s.toList

/-- `crud.get_object_by_expression` for the `User` table: first row
satisfying the filter expression, `none` when there is no such row. -/
def get_object_by_expression (db : List User) (p : User → Bool) : Option User :=
  db.find? p

/-- `services.get_user_by_username_or_email`: looks the subject string
up by the email column when it is email-shaped, else by the username
column. -/
def get_user_by_username_or_email (db : List User) (username : String) :
    Option User :=
  if isemail username then
    get_object_by_expression db (fun u => u.email == username)
  else
    get_object_by_expression db (fun u => u.username == username)

/-- C6: for every database and subject string, identity lookup is
dual-mode: an email-shaped subject is looked up against the email
column and nothing else; any other subject is looked up against the
username column and nothing else — the mode is chosen solely by the
shape of the string. -/
theorem lookup_dual_mode (db : List User) (s : String) :
    (isemail s = true →
      get_user_by_username_or_email db s = db.find? (fun u => u.email == s)) ∧
    (isemail s = false →
      get_user_by_username_or_email db s = db.find? (fun u => u.username == s)) := by
  unfold get_user_by_username_or_email get_object_by_expression
  constructor <;> intro h <;> simp [h]

/-- C6 witness: "a@b.cd" is email-shaped and "bob" is not; on a concrete
database where one user's USERNAME is the string "a@b.cd" and another
user's EMAIL is "a@b.cd", the lookup returns the email match,
demonstrating that the email-shaped string is never tried against the
username column. -/
theorem lookup_dual_mode_witness :
    isemail "a@b.cd" = true ∧ isemail "bob" = false ∧
    get_user_by_username_or_email
      [{ id := 1, username := "a@b.cd", email := "x@y.zz", role := { title := "User" } },
       { id := 2, username := "bob", email := "a@b.cd", role := { title := "User" } }]
      "a@b.cd" =
      some { id := 2, username := "bob", email := "a@b.cd", role := { title := "User" } } := by
  refine ⟨by decide, by decide, ?_⟩
  rw [(lookup_dual_mode
      [{ id := 1, username := "a@b.cd", email := "x@y.zz", role := { title := "User" } },
       { id := 2, username := "bob", email := "a@b.cd", role := { title := "User" } }]
      "a@b.cd").1 (by decide)]
  decide

/-! ## Token service (security/security_token.py, dependencies.py)

Signing and signature checking are embedded abstractly: a token records
the key it was signed with, and `jose.jwt.decode` succeeds exactly when
that key equals the verification key and the `exp` claim has not passed
(python-jose validates `exp` by default with zero leeway and raises a
`JWTError` subclass on either failure).  Timestamps are seconds as
`Int`; `timedelta` arguments are their total seconds. -/

/-- `security_token.SECRET_KEY`: loaded from the environment or freshly
generated once per process; embedded as an abstract process-wide
constant string. -/
def SECRET_KEY : String := "process-wide-secret-key"

/-- The claims dict as the resolution path reads it: only `sub` is
inspected (`payload.get("sub")`). -/
structure TokenPayload where
  sub : Option String
deriving DecidableEq, Repr

/-- A signed token: its claims, its absolute expiry and its signing
key. -/
structure Token where
  payload : TokenPayload
  exp : Int
  key : String
deriving DecidableEq, Repr

/-- Python truthiness of the `expires_delta` argument
(`if expires_delta:`): a missing timedelta and the ZERO timedelta are
both falsy. -/
def expiresDeltaTruthy : Option Int → Bool
  | none => false
  | some d => d ≠ 0

/-- `security_token.create_access_token`: copies the claims, sets
`exp = now + expires_delta` when `expires_delta` is truthy and
`exp = now + 15 minutes` otherwise, and signs with the process key. -/
def create_access_token (data : TokenPayload) (expiresDelta : Option Int)
    (now : Int) : Token :=
  { payload := data,
    exp := now +
      (if expiresDeltaTruthy expiresDelta then expiresDelta.getD 0
       else 15 * 60),
    key := SECRET_KEY }

/-- `jose.jwt.decode(token, key, algorithms)`: returns the claims when
the signature verifies under `key` and the token is not expired
(`exp < now` raises `ExpiredSignatureError`); any failure is a
`JWTError`. -/
def jwt_decode (tok : Token) (key : String) (now : Int) : Option TokenPayload :=
  if tok.key = key ∧ now ≤ tok.exp then some tok.payload else none

/-- An `HTTPException` as the routes raise it: status code and detail
message (the credentials error additionally carries a
`WWW-Authenticate: Bearer` header, not modelled). -/
structure HTTPError where
  statusCode : Nat
  detail : String
deriving DecidableEq, Repr

/-- The single exception object `dependencies.get_user` raises on every
resolution failure. -/
def credentials_exception : HTTPError :=
  { statusCode := 401, detail := "Could not validate credentials" }

/-- `dependencies.get_user`: decodes the token (any `JWTError` maps to
the credentials exception), requires a `sub` claim, resolves it with
`get_user_by_username_or_email`, and fails with the same credentials
exception when any step fails. -/
def get_user (tok : Token) (db : List User) (now : Int) :
    Except HTTPError User :=
  match jwt_decode tok SECRET_KEY now with
  | none => .error credentials_exception
  | some payload =>
    match payload.sub with
    | none => .error credentials_exception
    | some username =>
      match get_user_by_username_or_email db username with
      | none => .error credentials_exception
      | some user => .ok user

/-- C2 (counterexample): a token issued with ttl = 0 does NOT fail
resolution: `create_access_token` tests `if expires_delta:` and a zero
timedelta is falsy in Python, so a ttl-0 token silently receives the
default 15-minute lifetime; resolved 60 seconds after issuance it
succeeds and returns the user. -/
theorem get_user_ttl_zero_cex :
    get_user (create_access_token { sub := some "alice" } (some 0) 1000)
      [{ id := 1, username := "alice", email := "a@e.cd", role := { title := "User" } }]
      1060 =
      .ok { id := 1, username := "alice", email := "a@e.cd", role := { title := "User" } } := by
  rfl

/-- C2 (amended): every resolution failure of `get_user` — and only a
failure — carries the single uniform 401 error "Could not validate
credentials": any error it returns is that exact error, and each
failure mode (signature that does not verify, expired token, missing
`sub` claim, subject that maps to no known user) does fail with it.
The one amendment: a token issued with ttl = 0 is treated as if no ttl
had been passed (Python falsiness of the zero timedelta) and receives
the default 15-minute lifetime, so it fails — uniformly — only once
that default window has passed. -/
theorem get_user_uniform_error :
    (∀ (tok : Token) (db : List User) (now : Int) (e : HTTPError),
        get_user tok db now = .error e → e = credentials_exception) ∧
    (∀ (tok : Token) (db : List User) (now : Int),
        tok.key ≠ SECRET_KEY →
        get_user tok db now = .error credentials_exception) ∧
    (∀ (tok : Token) (db : List User) (now : Int),
        tok.exp < now →
        get_user tok db now = .error credentials_exception) ∧
    (∀ (tok : Token) (db : List User) (now : Int),
        tok.payload.sub = none →
        get_user tok db now = .error credentials_exception) ∧
    (∀ (tok : Token) (db : List User) (now : Int) (s : String),
        tok.payload.sub = some s →
        get_user_by_username_or_email db s = none →
        get_user tok db now = .error credentials_exception) ∧
    (∀ (data : TokenPayload) (now : Int),
        create_access_token data (some 0) now = create_access_token data none now) ∧
    (∀ (data : TokenPayload) (t0 : Int) (db : List User) (now : Int),
        t0 + 15 * 60 < now →
        get_user (create_access_token data (some 0) t0) db now =
          .error credentials_exception) := by
  refine ⟨?_, ?_, ?_, ?_, ?_, ?_, ?_⟩
  · intro tok db now e h
    unfold get_user at h
    repeat' split at h
    all_goals simp_all
  · intro tok db now h
    simp [get_user, jwt_decode, h]
  · intro tok db now h
    have hn : ¬ (now ≤ tok.exp) := by omega
    simp [get_user, jwt_decode, hn]
  · intro tok db now h
    unfold get_user jwt_decode
    split_ifs <;> simp [h]
  · intro tok db now s hs hl
    unfold get_user jwt_decode
    split_ifs <;> simp [hs, hl]
  · intro data now
    rfl
  · intro data t0 db now h
    have hn : ¬ (now ≤ t0 + 900) := by omega
    simp [get_user, create_access_token, jwt_decode, expiresDeltaTruthy, hn]

/-- C2 witness: each failure mode exercised at a concrete input — wrong
key, expired token, missing `sub`, unknown subject, and a ttl-0 token
resolved after the default window — each yielding exactly the uniform
credentials error. -/
theorem get_user_uniform_error_witness :
    get_user { payload := { sub := some "alice" }, exp := 2000, key := "wrong" } [] 1000 =
      .error credentials_exception ∧
    get_user { payload := { sub := some "alice" }, exp := 500, key := SECRET_KEY } [] 1000 =
      .error credentials_exception ∧
    get_user { payload := { sub := none }, exp := 2000, key := SECRET_KEY } [] 1000 =
      .error credentials_exception ∧
    get_user { payload := { sub := some "ghost" }, exp := 2000, key := SECRET_KEY } [] 1000 =
      .error credentials_exception ∧
    get_user (create_access_token { sub := some "x" } (some 0) 0) [] 1000 =
      .error credentials_exception :=
  ⟨get_user_uniform_error.2.1 _ [] 1000 (by decide),
   get_user_uniform_error.2.2.1 _ [] 1000 (by decide),
   get_user_uniform_error.2.2.2.1 _ [] 1000 rfl,
   get_user_uniform_error.2.2.2.2.1 _ [] 1000 "ghost" rfl (by rfl),
   get_user_uniform_error.2.2.2.2.2.2 _ 0 [] 1000 (by decide)⟩

/-! ## Admin-or-owner guard (decorators.py, raise_403_if_no_access)

The decorator wraps a route body and inspects its keyword arguments:
`kwargs.get('current_user')` (the authenticated caller, injected by
dependency) and `kwargs.get('user_id')` (the target user id path
parameter).  It is applied to the user self-service routes
`delete_user` and `update_user` (routers/users/users.py). -/

/-- The keyword arguments the wrapper inspects; `none` embeds an absent
key (`kwargs.get` returns `None`). -/
structure GuardKwargs where
  current_user : Option User
  user_id : Option Nat
deriving DecidableEq, Repr

/-- `decorators.raise_403_if_no_access`: when a caller is present, is
not an Admin, and its id differs from the `user_id` keyword argument
(in Python `user.id != None` is true, embedded as inequality of
optionals), raise 403 before the body runs; otherwise run the wrapped
body. -/
def raise_403_if_no_access {α : Type} (func : GuardKwargs → α)
    (kwargs : GuardKwargs) : Except HTTPError α :=
  match kwargs.current_user with
  | some user =>
      if user.role.title ≠ "Admin" ∧ some user.id ≠ kwargs.user_id then
        .error { statusCode := 403, detail := "You are not that user." }
      else .ok (func kwargs)
  | none => .ok (func kwargs)

/-- C4: for every caller identity and every admin-or-owner-protected
route body taking a target user id (the decorated `update_user` and
`delete_user`), the action is permitted iff the caller's role title is
"Admin" or the caller's id equals the target id; otherwise the call
raises Forbidden (403) and the protected body is not executed (the
result is the 403 error and is the same whatever body is wrapped). -/
theorem raise_403_if_no_access_admin_or_owner {α : Type}
    (func g : GuardKwargs → α) (u : User) (target : Nat) (kw : GuardKwargs)
    (hu : kw.current_user = some u) (ht : kw.user_id = some target) :
    (u.role.title = "Admin" ∨ u.id = target →
        raise_403_if_no_access func kw = .ok (func kw)) ∧
    (¬ (u.role.title = "Admin" ∨ u.id = target) →
        raise_403_if_no_access func kw =
          .error { statusCode := 403, detail := "You are not that user." } ∧
        raise_403_if_no_access g kw = raise_403_if_no_access func kw) := by
  unfold raise_403_if_no_access
  rw [hu, ht]
  push_neg
  constructor
  · intro h
    rcases h with h | h <;> rw [if_neg] <;> push_neg <;> intro hc <;> simp_all
  · intro h
    rw [if_pos, if_pos] <;> simp_all

/-- C4 witness: on concrete inputs, an Admin caller and the owner both
pass the guard, while an unrelated non-admin caller receives exactly
the 403 error — with the wrapped body never influencing the result. -/
theorem raise_403_if_no_access_witness :
    raise_403_if_no_access (fun _ => (0 : Nat))
      { current_user := some { id := 9, username := "root", email := "r@e.cd",
                               role := { title := "Admin" } },
        user_id := some 7 } = .ok 0 ∧
    raise_403_if_no_access (fun _ => (0 : Nat))
      { current_user := some { id := 7, username := "eve", email := "e@e.cd",
                               role := { title := "User" } },
        user_id := some 7 } = .ok 0 ∧
    raise_403_if_no_access (fun _ => (0 : Nat))
      { current_user := some { id := 8, username := "eve", email := "e@e.cd",
                               role := { title := "User" } },
        user_id := some 7 } =
      .error { statusCode := 403, detail := "You are not that user." } :=
  ⟨(raise_403_if_no_access_admin_or_owner (fun _ => (0 : Nat)) (fun _ => (0 : Nat))
      { id := 9, username := "root", email := "r@e.cd", role := { title := "Admin" } }
      7 _ rfl rfl).1 (Or.inl rfl),
   (raise_403_if_no_access_admin_or_owner (fun _ => (0 : Nat)) (fun _ => (0 : Nat))
      { id := 7, username := "eve", email := "e@e.cd", role := { title := "User" } }
      7 _ rfl rfl).1 (Or.inr rfl),
   ((raise_403_if_no_access_admin_or_owner (fun _ => (0 : Nat)) (fun _ => (0 : Nat))
      { id := 8, username := "eve", email := "e@e.cd", role := { title := "User" } }
      7 _ rfl rfl).2 (by decide)).1⟩

/-! ## Chat token extraction (dependencies.py, get_token_in_query)

`get_token_in_query` returns `token.replace('Bearer ', '')`.  Python's
`str.replace` scans left to right: at each position, if the pattern
starts there the pattern is skipped (replaced by the empty string) and
scanning resumes after it — positions already emitted are not
re-scanned — otherwise one character is emitted. -/

def bearerPat : List Char := "Bearer ".toList

/-- Left-to-right removal of every (non-overlapping) occurrence of
`bearerPat`, exactly as `str.replace(pattern, '')` scans. -/
def stripAllChars : List Char → List Char
  | [] => []
  | c :: cs =>
    if bearerPat.isPrefixOf (c :: cs) then
      stripAllChars (cs.drop (bearerPat.length - 1))
    else
      c :: stripAllChars cs
termination_by l => l.length
decreasing_by
  · simp only [List.length_drop, List.length_cons]
    omega
  · simp only [List.length_cons]
    omega

/-- The string contains an occurrence of `bearerPat`. -/
def hasBearer : List Char → Bool
  | [] => false
  | c :: cs => bearerPat.isPrefixOf (c :: cs) || hasBearer cs

/-- `dependencies.get_token_in_query`: the `?token=` query value with
every occurrence of the substring "Bearer " removed. -/
def get_token_in_query (token : String) : String :=
  String.mk (stripAllChars token.toList)

theorem stripAllChars_length_le (l : List Char) :
    (stripAllChars l).length ≤ l.length := by
  induction l using stripAllChars.induct with
  | case1 => simp [stripAllChars]
  | case2 c cs h ih =>
      rw [stripAllChars, if_pos h]
      simp only [List.length_cons]
      have := List.length_drop (bearerPat.length - 1) cs
      omega
  | case3 c cs h ih =>
      rw [stripAllChars, if_neg h]
      simpa using Nat.add_le_add_right ih 1

theorem stripAllChars_of_no_occurrence {l : List Char}
    (h : hasBearer l = false) : stripAllChars l = l := by
  induction l with
  | nil => simp [stripAllChars]
  | cons c cs ih =>
      rw [hasBearer] at h
      simp only [Bool.or_eq_false_iff] at h
      rw [stripAllChars, if_neg (by simp [h.1]), ih h.2]

theorem stripAllChars_length_lt {l : List Char}
    (h : hasBearer l = true) : (stripAllChars l).length < l.length := by
  induction l with
  | nil => simp [hasBearer] at h
  | cons c cs ih =>
      rw [hasBearer] at h
      by_cases hp : bearerPat.isPrefixOf (c :: cs) = true
      · rw [stripAllChars, if_pos hp]
        have h1 := stripAllChars_length_le (cs.drop (bearerPat.length - 1))
        have h2 := List.length_drop (bearerPat.length - 1) cs
        have h3 : bearerPat.length ≤ (c :: cs).length :=
          List.IsPrefix.length_le (List.isPrefixOf_iff_prefix.mp hp)
        simp only [List.length_cons] at h3 ⊢
        have h4 : bearerPat.length = 7 := rfl
        omega
      · have hb : hasBearer cs = true := by
          rcases Bool.or_eq_true_iff.mp h with h' | h'
          · exact absurd h' hp
          · exact h'
        rw [stripAllChars, if_neg hp]
        simp only [List.length_cons]
        exact Nat.succ_lt_succ (ih hb)

theorem stripAllChars_pat_append (l : List Char) :
    stripAllChars (bearerPat ++ l) = stripAllChars l := by
  show stripAllChars ('B' :: ("earer ".toList ++ l)) = stripAllChars l
  have hp : bearerPat.isPrefixOf ('B' :: ("earer ".toList ++ l)) = true :=
    List.isPrefixOf_iff_prefix.mpr (List.prefix_append bearerPat l)
  rw [stripAllChars, if_pos hp]
  show stripAllChars (("earer ".toList ++ l).drop ("earer ".toList).length) =
    stripAllChars l
  rw [List.drop_left]

/-- C9: the chat endpoint's token extraction removes every occurrence
of the substring "Bearer " by a string replace, not a prefix strip: a
"Bearer "-prefixed value loses that prefix exactly as a plain replace
would, a value containing no occurrence of "Bearer " at all is passed
through unchanged, and a value whose body contains the substring
"Bearer " anywhere is altered before verification. -/
theorem get_token_in_query_replace_all (token : String) :
    get_token_in_query token = String.mk (stripAllChars token.toList) ∧
    get_token_in_query (String.mk (bearerPat ++ token.toList)) =
      get_token_in_query token ∧
    (hasBearer token.toList = false → get_token_in_query token = token) ∧
    (hasBearer token.toList = true → get_token_in_query token ≠ token) := by
  refine ⟨rfl, ?_, ?_, ?_⟩
  · show String.mk (stripAllChars (bearerPat ++ token.toList)) = _
    rw [stripAllChars_pat_append]
    rfl
  · intro h
    obtain ⟨data⟩ := token
    show String.mk (stripAllChars data) = _
    rw [stripAllChars_of_no_occurrence (show hasBearer data = false from h)]
  · intro h heq
    have hl : stripAllChars token.toList = token.toList :=
      congrArg String.toList heq
    have := stripAllChars_length_lt h
    rw [hl] at this
    omega

/-- C9 witness: a plain token is passed through unchanged, while a
token whose body contains "Bearer " (not as a prefix) is altered. -/
theorem get_token_in_query_witness :
    get_token_in_query "abc" = "abc" ∧
    get_token_in_query "xBearer y" ≠ "xBearer y" :=
  ⟨(get_token_in_query_replace_all "abc").2.2.1 (by decide),
   (get_token_in_query_replace_all "xBearer y").2.2.2 (by decide)⟩

/-! ## Connection registry and chat lifecycle
(routers/chat/socket_manager.py, routers/chat/chat.py)

`SocketManager.active_connections` is a list of `(WebSocket, User)`
pairs; websocket handles are embedded as `Nat`.  `send` delivers one
JSON payload to every registered connection in list order; the
deliveries are embedded as the list of `(handle, payload)` pairs. -/

/-- A registered chat connection: `(websocket, user)`. -/
abbrev Conn := Nat × User

/-- The chat wire payload: `{user, message, connection}`. -/
structure ChatMsg where
  user : String
  message : String
  connection : Bool
deriving DecidableEq, Repr

/-- `SocketManager.connect`: accept and append to the registry. -/
def smConnect (st : List Conn) (ws : Nat) (user : User) : List Conn :=
  st ++ [(ws, user)]

/-- `SocketManager.disconnect`: `list.remove((websocket, user))` —
removes the first matching pair. -/
def smDisconnect (st : List Conn) (ws : Nat) (user : User) : List Conn :=
  st.erase (ws, user)

/-- `SocketManager.send`: iterate over the registry and send the
payload to each registered websocket. -/
def smSend (st : List Conn) (data : ChatMsg) : List (Nat × ChatMsg) :=
  st.map (fun c => (c.1, data))

/-- The open phase of the `chat` endpoint: when token resolution
failed, the dependency raised and the handler never runs — nothing is
registered, nothing is sent; on success the connection is registered
and the synthetic "connected" event is sent to every registered
connection (the new one included). -/
def chatOpen (st : List Conn) (ws : Nat) (auth : Option User) :
    List Conn × List (Nat × ChatMsg) :=
  match auth with
  | none => (st, [])
  | some u =>
      let st' := smConnect st ws u
      (st',
       smSend st' { user := u.username, message := "connected to the chat",
                    connection := true })

/-- The `WebSocketDisconnect` branch of the `chat` endpoint: remove the
connection, then send the synthetic "left" event (the same response
dict with its message overwritten) to the remaining connections. -/
def chatClose (st : List Conn) (ws : Nat) (u : User) :
    List Conn × List (Nat × ChatMsg) :=
  let st' := smDisconnect st ws u
  (st',
   smSend st' { user := u.username, message := "left the chat",
                connection := true })

/-- C7: the chat connection lifecycle.  Failed resolution at open time
registers nothing and broadcasts nothing.  Successful resolution
appends the connection to the registry and delivers
`{user, message:"connected to the chat", connection:true}` to exactly
the registered connections, the new one included.  Disconnection
removes the connection from the registry and delivers
`{user, message:"left the chat", connection:true}` to exactly the
remaining connections. -/
theorem chat_lifecycle (st : List Conn) (ws : Nat) (u : User) :
    chatOpen st ws none = (st, []) ∧
    (chatOpen st ws (some u)).1 = st ++ [(ws, u)] ∧
    (ws, ChatMsg.mk u.username "connected to the chat" true) ∈
      (chatOpen st ws (some u)).2 ∧
    (∀ (w : Nat) (m : ChatMsg),
        (w, m) ∈ (chatOpen st ws (some u)).2 ↔
          (∃ v, (w, v) ∈ st ++ [(ws, u)]) ∧
            m = ChatMsg.mk u.username "connected to the chat" true) ∧
    (chatClose st ws u).1 = st.erase (ws, u) ∧
    (∀ (w : Nat) (m : ChatMsg),
        (w, m) ∈ (chatClose st ws u).2 ↔
          (∃ v, (w, v) ∈ st.erase (ws, u)) ∧
            m = ChatMsg.mk u.username "left the chat" true) := by
  refine ⟨rfl, rfl, ?_, ?_, rfl, ?_⟩
  · simp [chatOpen, smConnect, smSend]
  · intro w m
    simp only [chatOpen, smConnect, smSend, List.mem_map, Prod.ext_iff]
    constructor
    · rintro ⟨⟨cw, cv⟩, hc, hw, hm⟩
      subst hw
      exact ⟨⟨cv, hc⟩, hm.symm⟩
    · rintro ⟨⟨v, hv⟩, hm⟩
      exact ⟨(w, v), hv, rfl, hm.symm⟩
  · intro w m
    simp only [chatClose, smDisconnect, smSend, List.mem_map, Prod.ext_iff]
    constructor
    · rintro ⟨⟨cw, cv⟩, hc, hw, hm⟩
      subst hw
      exact ⟨⟨cv, hc⟩, hm.symm⟩
    · rintro ⟨⟨v, hv⟩, hm⟩
      exact ⟨(w, v), hv, rfl, hm.symm⟩

/-! ## Registry counting (routers/chat/socket_manager.py) -/

/-- One registry operation: a connection opening or closing. -/
inductive ChatOp where
  | conn (ws : Nat) (u : User)
  | disc (ws : Nat) (u : User)
deriving DecidableEq, Repr

def applyOp (st : List Conn) : ChatOp → List Conn
  | .conn ws u => smConnect st ws u
  | .disc ws u => smDisconnect st ws u

def runOps (st : List Conn) (ops : List ChatOp) : List Conn :=
  ops.foldl applyOp st

/-- A trace is valid from a registry state when every disconnect
matches a connection registered at that point. -/
def validOps : List Conn → List ChatOp → Bool
  | _, [] => true
  | st, .conn ws u :: rest => validOps (smConnect st ws u) rest
  | st, .disc ws u :: rest =>
      decide ((ws, u) ∈ st) && validOps (smDisconnect st ws u) rest

def countConn : List ChatOp → Nat :=
  List.countP (fun op => match op with | .conn _ _ => true | .disc _ _ => false)

def countDisc : List ChatOp → Nat :=
  List.countP (fun op => match op with | .conn _ _ => false | .disc _ _ => true)

theorem runOps_length (st : List Conn) (ops : List ChatOp)
    (hv : validOps st ops = true) :
    (runOps st ops).length + countDisc ops = st.length + countConn ops := by
  induction ops generalizing st with
  | nil => simp [runOps, countConn, countDisc]
  | cons op rest ih =>
      cases op with
      | conn ws u =>
          have h := ih (smConnect st ws u) (by simpa [validOps] using hv)
          simp only [runOps, List.foldl_cons, applyOp] at h ⊢
          simp only [countConn, countDisc, List.countP_cons] at h ⊢
          simp only [smConnect] at h ⊢
          simp at h ⊢
          omega
      | disc ws u =>
          rw [validOps, Bool.and_eq_true, decide_eq_true_iff] at hv
          have h := ih (smDisconnect st ws u) hv.2
          have hlen : (smDisconnect st ws u).length = st.length - 1 := by
            simpa [smDisconnect] using List.length_erase_of_mem hv.1
          have hpos : 1 ≤ st.length := List.length_pos.mpr
            (List.ne_nil_of_mem hv.1)
          simp only [runOps, List.foldl_cons, applyOp] at h ⊢
          simp only [countConn, countDisc, List.countP_cons] at h ⊢
          simp at h ⊢
          omega

/-- C8: starting from an empty registry, after any valid interleaving
of N connects and M < N disconnects (each disconnect matching a
connection registered at that point), exactly N - M connections remain
registered; a single `send` delivers the payload to exactly those
N - M connections — the handles receiving it are precisely the
registered handles, so the sender's own open connection is among the
recipients and nothing outside the registry receives anything. -/
theorem registry_count_invariant (ops : List ChatOp)
    (hv : validOps [] ops = true)
    (hlt : countDisc ops < countConn ops) :
    (runOps [] ops).length = countConn ops - countDisc ops ∧
    (∀ m : ChatMsg,
        (smSend (runOps [] ops) m).map Prod.fst =
          (runOps [] ops).map Prod.fst) ∧
    (∀ (m : ChatMsg) (ws : Nat) (u : User), (ws, u) ∈ runOps [] ops →
        (ws, m) ∈ smSend (runOps [] ops) m) ∧
    (∀ (m : ChatMsg) (w : Nat) (p : ChatMsg), (w, p) ∈ smSend (runOps [] ops) m →
        p = m ∧ ∃ v, (w, v) ∈ runOps [] ops) := by
  have h := runOps_length [] ops hv
  refine ⟨by simp at h; omega, ?_, ?_, ?_⟩
  · intro m
    simp [smSend]
  · intro m ws u hm
    simp only [smSend, List.mem_map]
    exact ⟨(ws, u), hm, rfl⟩
  · intro m w p hp
    simp only [smSend, List.mem_map, Prod.ext_iff] at hp
    rcases hp with ⟨⟨cw, cv⟩, hc, hw, hm⟩
    subst hw
    exact ⟨hm.symm, cv, hc⟩

/-- A concrete trace: alice and bob connect, alice disconnects, carol
connects. -/
def sampleTrace : List ChatOp :=
  [ChatOp.conn 1 { id := 1, username := "alice", email := "a@e.cd", role := { title := "User" } },
   ChatOp.conn 2 { id := 2, username := "bob", email := "b@e.cd", role := { title := "User" } },
   ChatOp.disc 1 { id := 1, username := "alice", email := "a@e.cd", role := { title := "User" } },
   ChatOp.conn 3 { id := 3, username := "carol", email := "c@e.cd", role := { title := "User" } }]

/-- C8 witness: on the concrete trace (N = 3 connects, M = 1
disconnect) the registry holds exactly 2 = N - M connections and bob's
connection receives a payload sent afterwards. -/
theorem registry_count_invariant_witness :
    (runOps [] sampleTrace).length = countConn sampleTrace - countDisc sampleTrace ∧
    countConn sampleTrace - countDisc sampleTrace = 2 ∧
    (2, ChatMsg.mk "bob" "hi" true) ∈
      smSend (runOps [] sampleTrace) (ChatMsg.mk "bob" "hi" true) := by
  refine ⟨(registry_count_invariant sampleTrace (by decide) (by decide)).1,
    by decide, ?_⟩
  exact (registry_count_invariant sampleTrace (by decide) (by decide)).2.2.1
    (ChatMsg.mk "bob" "hi" true) 2
    { id := 2, username := "bob", email := "b@e.cd", role := { title := "User" } }
    (by decide)

/-! ## Article rating (database/crud.py, update_article_rating)

Rating lists hold user rows; membership (`user_db in data_main`) is ORM
identity, i.e. the user's id, so the lists are embedded as lists of
user ids.  `data_main.pop(data_main.index(user_db))` removes the first
occurrence. -/

structure Article where
  likes : List Nat
  dislikes : List Nat
deriving DecidableEq, Repr

/-- `schemas.ArticleRatingType`. -/
inductive RatingType where
  | likes
  | dislikes
deriving DecidableEq, Repr

def getRating (a : Article) : RatingType → List Nat
  | .likes => a.likes
  | .dislikes => a.dislikes

def setRating (a : Article) : RatingType → List Nat → Article
  | .likes, l => { a with likes := l }
  | .dislikes, l => { a with dislikes := l }

/-- `names[names.index(rating_type) - 1]` with
`names = ['likes', 'dislikes']`: index 0 - 1 = -1 wraps to 'dislikes',
index 1 - 1 = 0 is 'likes' — the opposite list. -/
def otherRating : RatingType → RatingType
  | .likes => .dislikes
  | .dislikes => .likes

/-- `crud.update_article_rating`: if the user is already in the chosen
list, remove the first occurrence; otherwise append the user to the
chosen list and, if present in the opposite list, remove the first
occurrence there. -/
def update_article_rating (a : Article) (uid : Nat) (rt : RatingType) :
    Article :=
  let main := getRating a rt
  if uid ∈ main then
    setRating a rt (main.erase uid)
  else
    let a1 := setRating a rt (main ++ [uid])
    let sec := getRating a1 (otherRating rt)
    if uid ∈ sec then setRating a1 (otherRating rt) (sec.erase uid) else a1

/-- The same update at the level of the (chosen, opposite) pair of
lists. -/
def ratingStep (main sec : List Nat) (uid : Nat) : List Nat × List Nat :=
  if uid ∈ main then (main.erase uid, sec)
  else (main ++ [uid], if uid ∈ sec then sec.erase uid else sec)

theorem update_article_rating_eq_step (a : Article) (uid : Nat)
    (rt : RatingType) :
    getRating (update_article_rating a uid rt) rt =
      (ratingStep (getRating a rt) (getRating a (otherRating rt)) uid).1 ∧
    getRating (update_article_rating a uid rt) (otherRating rt) =
      (ratingStep (getRating a rt) (getRating a (otherRating rt)) uid).2 := by
  cases rt <;>
    simp only [update_article_rating, getRating, setRating, otherRating,
      ratingStep] <;>
    split_ifs <;> exact ⟨rfl, rfl⟩

theorem ratingStep_props (main sec : List Nat) (uid : Nat)
    (h : main.count uid + sec.count uid ≤ 1) :
    (uid ∈ main → uid ∉ (ratingStep main sec uid).1 ∧
        uid ∉ (ratingStep main sec uid).2) ∧
    (uid ∉ main → uid ∈ (ratingStep main sec uid).1 ∧
        uid ∉ (ratingStep main sec uid).2) ∧
    (∀ v, v ≠ uid →
        ((v ∈ (ratingStep main sec uid).1 ↔ v ∈ main) ∧
         (v ∈ (ratingStep main sec uid).2 ↔ v ∈ sec))) ∧
    (ratingStep main sec uid).1.count uid +
        (ratingStep main sec uid).2.count uid ≤ 1 := by
  by_cases hm : uid ∈ main
  · have h1 : 1 ≤ main.count uid := List.count_pos_iff.mpr hm
    have hs0 : sec.count uid = 0 := by omega
    have he0 : (main.erase uid).count uid = 0 := by
      rw [List.count_erase_self]; omega
    simp only [ratingStep, if_pos hm]
    refine ⟨fun _ => ⟨?_, ?_⟩, fun hc => absurd hm hc, fun v hv => ⟨?_, by simp⟩, ?_⟩
    · exact fun hc => absurd (List.count_pos_iff.mpr hc) (by omega)
    · exact fun hc => absurd (List.count_pos_iff.mpr hc) (by omega)
    · exact List.mem_erase_of_ne hv
    · omega
  · have h0 : main.count uid = 0 := List.count_eq_zero_of_not_mem hm
    simp only [ratingStep, if_neg hm]
    refine ⟨fun hc => absurd hc hm, fun _ => ⟨?_, ?_⟩, fun v hv => ⟨?_, ?_⟩, ?_⟩
    · exact List.mem_append_right main (List.mem_singleton_self uid)
    · by_cases hs : uid ∈ sec
      · rw [if_pos hs]
        have h1 : 1 ≤ sec.count uid := List.count_pos_iff.mpr hs
        have : (sec.erase uid).count uid = 0 := by
          rw [List.count_erase_self]; omega
        exact fun hc => absurd (List.count_pos_iff.mpr hc) (by omega)
      · rw [if_neg hs]; exact hs
    · simp [List.mem_append, hv]
    · by_cases hs : uid ∈ sec
      · rw [if_pos hs]; exact List.mem_erase_of_ne hv
      · rw [if_neg hs]
    · have hc1 : (main ++ [uid]).count uid = 1 := by
        simp [List.count_append, h0]
      by_cases hs : uid ∈ sec
      · rw [if_pos hs]
        have h1 : 1 ≤ sec.count uid := List.count_pos_iff.mpr hs
        rw [hc1, List.count_erase_self]
        omega
      · rw [if_neg hs, hc1, List.count_eq_zero_of_not_mem hs]

/-- C10: article-rating mutual exclusion and toggling.  For an article
whose lists are well-formed for the user (the user occurs at most once
across likes and dislikes), after `update_article_rating` the user is
in at most one of likes/dislikes; a user already in the chosen list is
removed from it (and a second identical call re-adds them, i.e. undoes
the first at membership level, and ends with the user out of the
opposite list); a user not in the chosen list is added to it and is
absent from the opposite list afterwards; every other user's
membership in both lists is untouched. -/
theorem update_article_rating_invariant (a : Article) (uid : Nat)
    (rt : RatingType)
    (h : a.likes.count uid + a.dislikes.count uid ≤ 1) :
    (¬ (uid ∈ (update_article_rating a uid rt).likes ∧
        uid ∈ (update_article_rating a uid rt).dislikes)) ∧
    (uid ∈ getRating a rt →
        uid ∉ getRating (update_article_rating a uid rt) rt ∧
        uid ∉ getRating (update_article_rating a uid rt) (otherRating rt)) ∧
    (uid ∉ getRating a rt →
        uid ∈ getRating (update_article_rating a uid rt) rt ∧
        uid ∉ getRating (update_article_rating a uid rt) (otherRating rt)) ∧
    (∀ v, v ≠ uid →
        ((v ∈ getRating (update_article_rating a uid rt) rt ↔
            v ∈ getRating a rt) ∧
         (v ∈ getRating (update_article_rating a uid rt) (otherRating rt) ↔
            v ∈ getRating a (otherRating rt)))) ∧
    (uid ∈ getRating a rt →
        uid ∈ getRating
          (update_article_rating (update_article_rating a uid rt) uid rt) rt ∧
        uid ∉ getRating
          (update_article_rating (update_article_rating a uid rt) uid rt)
          (otherRating rt)) := by
  have hcount : (getRating a rt).count uid +
      (getRating a (otherRating rt)).count uid ≤ 1 := by
    cases rt <;> simp only [getRating, otherRating] <;> omega
  have heq := update_article_rating_eq_step a uid rt
  have hp := ratingStep_props (getRating a rt) (getRating a (otherRating rt))
    uid hcount
  have hnot2 : uid ∉
      (ratingStep (getRating a rt) (getRating a (otherRating rt)) uid).2 := by
    by_cases hm : uid ∈ getRating a rt
    · exact (hp.1 hm).2
    · exact (hp.2.1 hm).2
  refine ⟨?_, ?_, ?_, ?_, ?_⟩
  · intro hc
    apply hnot2
    rw [← heq.2]
    cases rt
    · exact hc.2
    · exact hc.1
  · intro hm
    rw [heq.1, heq.2]
    exact hp.1 hm
  · intro hm
    rw [heq.1, heq.2]
    exact hp.2.1 hm
  · intro v hv
    rw [heq.1, heq.2]
    exact hp.2.2.1 v hv
  · intro hm
    have hcount' : (getRating (update_article_rating a uid rt) rt).count uid +
        (getRating (update_article_rating a uid rt) (otherRating rt)).count uid
          ≤ 1 := by
      rw [heq.1, heq.2]; exact hp.2.2.2
    have heq' := update_article_rating_eq_step (update_article_rating a uid rt)
      uid rt
    have hp' := ratingStep_props
      (getRating (update_article_rating a uid rt) rt)
      (getRating (update_article_rating a uid rt) (otherRating rt)) uid hcount'
    have hnotm : uid ∉ getRating (update_article_rating a uid rt) rt := by
      rw [heq.1]; exact (hp.1 hm).1
    constructor
    · rw [heq'.1]; exact (hp'.2.1 hnotm).1
    · rw [heq'.2]; exact (hp'.2.1 hnotm).2

/-- C10 witness: on the concrete article with likes [5] and dislikes
[7], user 7 sending a like is added to likes and removed from
dislikes. -/
theorem update_article_rating_invariant_witness :
    (7 ∈ getRating (update_article_rating ⟨[5], [7]⟩ 7 RatingType.likes)
        RatingType.likes) ∧
    (7 ∉ getRating (update_article_rating ⟨[5], [7]⟩ 7 RatingType.likes)
        (otherRating RatingType.likes)) :=
  (update_article_rating_invariant ⟨[5], [7]⟩ 7 RatingType.likes
    (by decide)).2.2.1 (by decide)

/-! ## Password hashing (security/hashing.py)

`get_password_hash` and `verify_password` delegate directly to
passlib's bcrypt `CryptContext` (`pwd_context.hash` /
`pwd_context.verify`), a third-party library whose code is not part of
this repository; the wrappers in `security/hashing.py` add nothing.
The primitive is therefore modelled from the spec (§4.1): a salted
deterministic one-way digest in modular-crypt format, with scheme
identification on verification.  One-wayness and computational cost
are not modelled; only the verification algebra is. -/

/-- Modelled from the spec: the bcrypt digest computed by the
third-party backend (absent from the repository) — a deterministic
transform of salt and password, injective in the password for a fixed
salt. -/
def bcryptDigest (salt : List Char) (password : String) : List Char :=
  salt ++ password.toList.reverse

/-- Modelled from the spec: `pwd_context.hash` — a modular-crypt-format
hash string `"$2b$" ++ salt ++ "$" ++ digest` over a salt chosen at
call time (the random salt is an explicit argument of the model). -/
def get_password_hash (password : String) (salt : String) : String :=
  String.mk ("$2b$".toList ++ salt.toList ++
    '$' :: bcryptDigest salt.toList password)

/-- Modelled from the spec: scheme identification — a stored string is
recognized as a bcrypt hash iff it carries the "$2b$" marker followed
by a salt, a separator and a digest; any other string is malformed
(a valid hash of no scheme). -/
def parseBcrypt (hashed : String) : Option (List Char × List Char) :=
  let l := hashed.toList
  if "$2b$".toList.isPrefixOf l then
    let rest := l.drop 4
    let salt := rest.takeWhile (fun c => decide (c ≠ '$'))
    match rest.drop salt.length with
    | '$' :: digest => some (salt, digest)
    | _ => none
  else none

/-- Modelled from the spec: `pwd_context.verify` — identify the scheme
of the stored hash, recompute the digest of the candidate password
under the stored salt and compare; a malformed stored hash verifies
nothing. -/
def verify_password (plain : String) (hashed : String) : Bool :=
  match parseBcrypt hashed with
  | none => false
  | some (salt, digest) => digest == bcryptDigest salt plain

theorem takeWhile_no_dollar (salt rest2 : List Char)
    (hs : ∀ c ∈ salt, c ≠ '$') :
    (salt ++ '$' :: rest2).takeWhile (fun c => decide (c ≠ '$')) = salt := by
  induction salt with
  | nil => simp [List.takeWhile]
  | cons c cs ih =>
      have hc : c ≠ '$' := hs c (List.mem_cons_self c cs)
      simp only [List.cons_append, List.takeWhile_cons, decide_eq_true_eq]
      rw [if_pos hc, ih (fun d hd => hs d (List.mem_cons_of_mem c hd))]

theorem parseBcrypt_round_trip (password salt : String)
    (hs : ∀ c ∈ salt.toList, c ≠ '$') :
    parseBcrypt (get_password_hash password salt) =
      some (salt.toList, bcryptDigest salt.toList password) := by
  unfold parseBcrypt get_password_hash
  have hpre : "$2b$".toList.isPrefixOf
      ("$2b$".toList ++ (salt.toList ++
        '$' :: bcryptDigest salt.toList password)) = true :=
    List.isPrefixOf_iff_prefix.mpr (List.prefix_append _ _)
  simp only [List.append_assoc] at hpre ⊢
  rw [show (String.mk ("$2b$".toList ++ (salt.toList ++
      '$' :: bcryptDigest salt.toList password))).toList =
      "$2b$".toList ++ (salt.toList ++
        '$' :: bcryptDigest salt.toList password) from rfl]
  rw [if_pos hpre]
  rw [show ("$2b$".toList ++ (salt.toList ++
      '$' :: bcryptDigest salt.toList password)).drop 4 =
      salt.toList ++ '$' :: bcryptDigest salt.toList password from
    List.drop_left "$2b$".toList _]
  rw [takeWhile_no_dollar _ _ hs]
  rw [List.drop_left]
  rfl

theorem toList_inj_str {s1 s2 : String} (h : s1.toList = s2.toList) :
    s1 = s2 := by
  obtain ⟨d1⟩ := s1
  obtain ⟨d2⟩ := s2
  exact congrArg String.mk h

/-- C5: for every password p and salt, verifying p against a hash of p
succeeds; verifying a different password against that hash fails; and
hashing the same password under two different salts yields two
different hash strings (both of which verify p) — so equality of hash
outputs is not required, only verifiability. -/
theorem verify_password_round_trip :
    (∀ (p salt : String), (∀ c ∈ salt.toList, c ≠ '$') →
        verify_password p (get_password_hash p salt) = true) ∧
    (∀ (p1 p2 salt : String), (∀ c ∈ salt.toList, c ≠ '$') → p1 ≠ p2 →
        verify_password p1 (get_password_hash p2 salt) = false) ∧
    (∀ (p s1 s2 : String), (∀ c ∈ s1.toList, c ≠ '$') →
        (∀ c ∈ s2.toList, c ≠ '$') → s1 ≠ s2 →
        get_password_hash p s1 ≠ get_password_hash p s2) := by
  refine ⟨?_, ?_, ?_⟩
  · intro p salt hs
    unfold verify_password
    rw [parseBcrypt_round_trip p salt hs]
    simp
  · intro p1 p2 salt hs hne
    unfold verify_password
    rw [parseBcrypt_round_trip p2 salt hs]
    show (bcryptDigest salt.toList p2 == bcryptDigest salt.toList p1) = false
    refine beq_eq_false_iff_ne.mpr fun he => hne ?_
    unfold bcryptDigest at he
    have h1 := List.append_cancel_left he
    have h2 := List.reverse_injective h1
    exact (toList_inj_str h2).symm
  · intro p s1 s2 hs1 hs2 hne he
    have hp := congrArg parseBcrypt he
    rw [parseBcrypt_round_trip p s1 hs1, parseBcrypt_round_trip p s2 hs2] at hp
    have := (Option.some.injEq _ _).mp hp
    exact hne (toList_inj_str (congrArg Prod.fst this))

/-- C5 witness: a concrete round trip — the right password verifies, a
wrong one does not, and two salts give two distinct verifying hashes. -/
theorem verify_password_round_trip_witness :
    verify_password "hunter2" (get_password_hash "hunter2" "ab") = true ∧
    verify_password "letmein" (get_password_hash "hunter2" "ab") = false ∧
    get_password_hash "hunter2" "ab" ≠ get_password_hash "hunter2" "cd" :=
  ⟨verify_password_round_trip.1 "hunter2" "ab" (by decide),
   verify_password_round_trip.2.1 "letmein" "hunter2" "ab" (by decide)
     (by decide),
   verify_password_round_trip.2.2 "hunter2" "ab" "cd" (by decide) (by decide)
     (by decide)⟩

/-- C3: `verify_password` is a total Boolean function of its two string
arguments — in particular on a malformed stored hash, one recognized by
no scheme, it returns false rather than failing. -/
theorem verify_password_never_throws :
    (∀ (plain hashed : String),
        verify_password plain hashed = true ∨
        verify_password plain hashed = false) ∧
    (∀ (plain hashed : String), parseBcrypt hashed = none →
        verify_password plain hashed = false) := by
  refine ⟨fun plain hashed => ?_, fun plain hashed h => ?_⟩
  · cases hv : verify_password plain hashed
    · exact Or.inr rfl
    · exact Or.inl rfl
  · unfold verify_password
    rw [h]

/-- C3 witness: two concrete malformed hashes — a plain word and a
bcrypt-marked string with no digest separator — both verify to false. -/
theorem verify_password_never_throws_witness :
    verify_password "x" "notahash" = false ∧
    verify_password "x" "$2b$nosalt" = false :=
  ⟨verify_password_never_throws.2 "x" "notahash" (by rfl),
   verify_password_never_throws.2 "x" "$2b$nosalt" (by rfl)⟩
